import Mathlib

/-!
# Verification of `treesaver.dimensions` (src/src/lib/dimensions.js)

A shallow embedding of the measurement helpers of the treesaver layout
library: pixel-string parsing (`toPixels`), the size-range containment
test (`inSizeRange`), the range merge (`mergeSizeRange`), the rounding
helper (`roundUp`), and the `Metrics` box-model snapshot with its
`clone` operation.

JavaScript numbers are modelled by the type `JSVal`: a rational, one of
the infinities, `NaN`, or `undefined` (a missing property read).  The
embedding reproduces the JavaScript semantics the source relies on:
`||` returns its first operand when that operand is truthy (`0`, `NaN`
and `undefined` are falsy), arithmetic on `undefined` yields `NaN`,
`Math.max`/`Math.min` propagate `NaN`, and relational comparisons
involving `NaN` or `undefined` are false.
-/

/-- A JavaScript numeric value as read off an object property:
`undefined` (absent property), `NaN`, `Infinity`, `-Infinity`, or a
finite number (modelled as a rational; the source only ever produces
values exactly representable this way). -/
inductive JSVal where
  | undef : JSVal
  | nan : JSVal
  | inf : JSVal
  | negInf : JSVal
  | num : ℚ → JSVal
deriving DecidableEq, Repr

namespace JSVal

/-- JavaScript truthiness of a `JSVal`: `undefined`, `NaN` and `0` are
falsy; every other number, including the infinities, is truthy. -/
def truthy : JSVal → Bool
  | undef => false
  | nan => false
  | inf => true
  | negInf => true
  | num q => decide (q ≠ 0)

/-- JavaScript `a || b`: `a` when `a` is truthy, otherwise `b`. -/
def orElse (a b : JSVal) : JSVal :=
  if a.truthy then a else b

/-- JavaScript `a + b` on numeric values: `undefined` coerces to `NaN`,
`NaN` propagates, `Infinity + (-Infinity)` is `NaN`. -/
def add : JSVal → JSVal → JSVal
  | num a, num b => num (a + b)
  | num _, inf => inf
  | inf, num _ => inf
  | inf, inf => inf
  | num _, negInf => negInf
  | negInf, num _ => negInf
  | negInf, negInf => negInf
  | _, _ => nan

/-- JavaScript `a - b` on numeric values. -/
def sub : JSVal → JSVal → JSVal
  | num a, num b => num (a - b)
  | num _, inf => negInf
  | num _, negInf => inf
  | inf, num _ => inf
  | inf, negInf => inf
  | negInf, num _ => negInf
  | negInf, inf => negInf
  | _, _ => nan

/-- JavaScript `Math.max(a, b)`: `NaN` (and `undefined`, coerced to
`NaN`) makes the result `NaN`. -/
def jmax : JSVal → JSVal → JSVal
  | num a, num b => num (max a b)
  | num a, negInf => num a
  | negInf, num b => num b
  | inf, num _ => inf
  | num _, inf => inf
  | inf, inf => inf
  | inf, negInf => inf
  | negInf, inf => inf
  | negInf, negInf => negInf
  | _, _ => nan

/-- JavaScript `Math.min(a, b)`. -/
def jmin : JSVal → JSVal → JSVal
  | num a, num b => num (min a b)
  | num a, inf => num a
  | inf, num b => num b
  | negInf, num _ => negInf
  | num _, negInf => negInf
  | negInf, negInf => negInf
  | negInf, inf => negInf
  | inf, negInf => negInf
  | inf, inf => inf
  | _, _ => nan

/-- JavaScript `a >= b`: false whenever either side is `NaN` or
`undefined`. -/
def jge : JSVal → JSVal → Bool
  | num a, num b => decide (b ≤ a)
  | num _, negInf => true
  | num _, inf => false
  | inf, num _ => true
  | inf, inf => true
  | inf, negInf => true
  | negInf, negInf => true
  | negInf, num _ => false
  | negInf, inf => false
  | _, _ => false

/-- JavaScript `a <= b`: false whenever either side is `NaN` or
`undefined`. -/
def jle : JSVal → JSVal → Bool
  | num a, num b => decide (a ≤ b)
  | num _, inf => true
  | num _, negInf => false
  | inf, num _ => false
  | inf, inf => true
  | inf, negInf => false
  | negInf, num _ => true
  | negInf, inf => true
  | negInf, negInf => true
  | _, _ => false

end JSVal

/-- Embedding of `Option ℚ` field data into a `JSVal` property read:
an absent field reads as `undefined`, a present one as its number. -/
def optJS : Option ℚ → JSVal
  | none => JSVal.undef
  | some q => JSVal.num q

/-- A `Size` record `{ w, h }` as consumed by `inSizeRange`
(the `treesaver.dimensions.Size` typedef). -/
structure Size where
  w : ℚ
  h : ℚ
deriving DecidableEq, Repr

/-- A size-range record as read by `inSizeRange` (fields `minW`, `minH`,
`maxW`, `maxH`) and by `mergeSizeRange` (fields `width`, `height`,
`maxW`, `maxH`).  Each field is a `JSVal` so that absent fields
(`undefined`) are representable; `mergeSizeRange` returns an object
literal without `minW`/`minH`, embedded here as those fields being
`undefined`. -/
structure SizeRange where
  width : JSVal
  height : JSVal
  minW : JSVal
  minH : JSVal
  maxW : JSVal
  maxH : JSVal
deriving DecidableEq, Repr

/-- The record `{}`: every property read yields `undefined`. -/
def emptySizeRange : SizeRange :=
  ⟨JSVal.undef, JSVal.undef, JSVal.undef, JSVal.undef, JSVal.undef, JSVal.undef⟩

/-- The fields `mergeSizeRange` reads off its second argument `b`
(a `Metrics` instance or a plain object). -/
structure MetricsView where
  width : JSVal
  height : JSVal
  maxW : JSVal
  maxH : JSVal
  bpWidth : JSVal
  bpHeight : JSVal
  outerWidth : JSVal
  outerHeight : JSVal
deriving DecidableEq, Repr

/-- The record `{}` viewed through the fields `mergeSizeRange` reads. -/
def emptyMetricsView : MetricsView :=
  ⟨JSVal.undef, JSVal.undef, JSVal.undef, JSVal.undef,
   JSVal.undef, JSVal.undef, JSVal.undef, JSVal.undef⟩

/-- `treesaver.dimensions.inSizeRange(range, size)` (dimensions.js
lines 43–52):
```js
if (!range) { return false; }
return size.w >= range.minW && size.h >= range.minH &&
  (!range.maxW || size.w <= range.maxW) &&
  (!range.maxH || size.h <= range.maxH);
``` -/
def inSizeRange (range : Option SizeRange) (size : Size) : Bool :=
  match range with
  | none => false
  | some r =>
    JSVal.jge (JSVal.num size.w) r.minW && JSVal.jge (JSVal.num size.h) r.minH &&
      (!r.maxW.truthy || JSVal.jle (JSVal.num size.w) r.maxW) &&
      (!r.maxH.truthy || JSVal.jle (JSVal.num size.h) r.maxH)

/-- The `bpWidth`/`bpHeight` local of `mergeSizeRange` for one axis:
`outer ? b.bp || (b.outerDim ? b.outerDim - b.dim : 0) : 0`
(dimensions.js lines 65–68). -/
def mergeFootprint (outer : Bool) (bp outerDim dim : JSVal) : JSVal :=
  if outer then
    JSVal.orElse bp (if outerDim.truthy then JSVal.sub outerDim dim else JSVal.num 0)
  else JSVal.num 0

/-- `treesaver.dimensions.mergeSizeRange(a, b, outer)` (dimensions.js
lines 61–78):
```js
a = a || {}; b = b || {};
var bpHeight = outer ? b.bpHeight || (b.outerHeight ? b.outerHeight - b.height : 0) : 0,
    bpWidth  = outer ? b.bpWidth  || (b.outerWidth  ? b.outerWidth  - b.width  : 0) : 0;
return {
  width: Math.max(a.width || 0, (b.width + bpWidth) || 0),
  height: Math.max(a.height || 0, (b.height + bpHeight) || 0),
  maxW: Math.min(a.maxW || Infinity, b.maxW + bpWidth || Infinity),
  maxH: Math.min(a.maxH || Infinity, b.maxH + bpHeight || Infinity)
};
``` -/
def mergeSizeRange (a : Option SizeRange) (b : Option MetricsView) (outer : Bool) :
    SizeRange :=
  let a' := a.getD emptySizeRange
  let b' := b.getD emptyMetricsView
  let bpHeight := mergeFootprint outer b'.bpHeight b'.outerHeight b'.height
  let bpWidth := mergeFootprint outer b'.bpWidth b'.outerWidth b'.width
  { width := JSVal.jmax (JSVal.orElse a'.width (JSVal.num 0))
      (JSVal.orElse (JSVal.add b'.width bpWidth) (JSVal.num 0)),
    height := JSVal.jmax (JSVal.orElse a'.height (JSVal.num 0))
      (JSVal.orElse (JSVal.add b'.height bpHeight) (JSVal.num 0)),
    minW := JSVal.undef,
    minH := JSVal.undef,
    maxW := JSVal.jmin (JSVal.orElse a'.maxW JSVal.inf)
      (JSVal.orElse (JSVal.add b'.maxW bpWidth) JSVal.inf),
    maxH := JSVal.jmin (JSVal.orElse a'.maxH JSVal.inf)
      (JSVal.orElse (JSVal.add b'.maxH bpHeight) JSVal.inf) }

/-- Spec-side reading of claim C1's maximum bound: "`range.maxW` is
unset or zero OR the width is ≤ `range.maxW`". -/
def maxBoundOk (limit : Option ℚ) (v : ℚ) : Prop :=
  match limit with
  | none => True
  | some m => m = 0 ∨ v ≤ m

instance (limit : Option ℚ) (v : ℚ) : Decidable (maxBoundOk limit v) := by
  unfold maxBoundOk
  cases limit <;> infer_instance

/-- C1: `inSizeRange(range, size)` is false for every size when the
range is absent; otherwise it is true iff the size's width is ≥
`range.minW`, its height is ≥ `range.minH`, `range.maxW` is unset or
zero or the width is ≤ `range.maxW`, and `range.maxH` is unset or zero
or the height is ≤ `range.maxH` — minimums always apply, every bound is
inclusive, and a zero or absent maximum is no constraint. -/
theorem inSizeRange_correct :
    (∀ size : Size, inSizeRange none size = false) ∧
    (∀ (size : Size) (w h : JSVal) (mw mh : ℚ) (xw xh : Option ℚ),
      inSizeRange (some ⟨w, h, JSVal.num mw, JSVal.num mh, optJS xw, optJS xh⟩) size
          = true ↔
        mw ≤ size.w ∧ mh ≤ size.h ∧ maxBoundOk xw size.w ∧ maxBoundOk xh size.h) := by
  refine ⟨fun _ => rfl, fun size w h mw mh xw xh => ?_⟩
  cases xw <;> cases xh <;>
    simp [inSizeRange, optJS, JSVal.jge, JSVal.jle, JSVal.truthy, maxBoundOk,
      and_assoc, or_comm]

/-- Modelled from claim C2's words: the merged maximum is "the smaller
of the two inputs' maximums with an absent maximum treated as +∞". -/
def claimedMergedMax : Option ℚ → Option ℚ → JSVal
  | none, none => JSVal.inf
  | some a, none => JSVal.num a
  | none, some b => JSVal.num b
  | some a, some b => JSVal.num (min a b)

/-- A present-but-zero maximum behaves exactly like an absent one in
`mergeSizeRange` (both are falsy): this map sends `some 0` to `none`. -/
def zClear : Option ℚ → Option ℚ
  | none => none
  | some m => if m = 0 then none else some m

/-- A maximum field with the `|| Infinity` default applied:
absent reads as `Infinity`. -/
def infJS : Option ℚ → JSVal
  | none => JSVal.inf
  | some q => JSVal.num q

theorem orElse_optJS_zero (x : Option ℚ) :
    JSVal.orElse (optJS x) (JSVal.num 0) = JSVal.num (x.getD 0) := by
  cases x with
  | none => rfl
  | some q =>
    by_cases h : q = 0 <;> simp [optJS, JSVal.orElse, JSVal.truthy, h]

theorem orElse_add_zero_zero (y : Option ℚ) :
    JSVal.orElse (JSVal.add (optJS y) (JSVal.num 0)) (JSVal.num 0)
      = JSVal.num (y.getD 0) := by
  cases y with
  | none => rfl
  | some q =>
    by_cases h : q = 0 <;> simp [optJS, JSVal.add, JSVal.orElse, JSVal.truthy, h]

theorem orElse_optJS_inf (x : Option ℚ) :
    JSVal.orElse (optJS x) JSVal.inf = infJS (zClear x) := by
  cases x with
  | none => rfl
  | some q =>
    by_cases h : q = 0 <;> simp [optJS, JSVal.orElse, JSVal.truthy, zClear, infJS, h]

theorem orElse_add_zero_inf (y : Option ℚ) :
    JSVal.orElse (JSVal.add (optJS y) (JSVal.num 0)) JSVal.inf
      = infJS (zClear y) := by
  cases y with
  | none => rfl
  | some q =>
    by_cases h : q = 0 <;>
      simp [optJS, JSVal.add, JSVal.orElse, JSVal.truthy, zClear, infJS, h]

theorem jmin_infJS (x y : Option ℚ) :
    JSVal.jmin (infJS x) (infJS y) = claimedMergedMax x y := by
  cases x <;> cases y <;> rfl

/-- C2 counterexample: the claim reads "maxW is the smaller of the two
inputs' maximums with an *absent* maximum treated as +∞", but a
*present* maximum of 0 is also discarded: merging `{maxW: 0}` with
`{maxW: 5}` yields `maxW = 5`, not the smaller maximum 0. -/
theorem mergeSizeRange_zero_max_cex :
    (mergeSizeRange
        (some ⟨JSVal.undef, JSVal.undef, JSVal.undef, JSVal.undef,
               JSVal.num 0, JSVal.undef⟩)
        (some ⟨JSVal.undef, JSVal.undef, JSVal.num 5, JSVal.undef,
               JSVal.undef, JSVal.undef, JSVal.undef, JSVal.undef⟩) false).maxW
      = JSVal.num 5 ∧
    claimedMergedMax (some 0) (some 5) = JSVal.num 0 ∧
    JSVal.num 5 ≠ JSVal.num 0 := by
  refine ⟨?_, ?_, ?_⟩
  · simp [mergeSizeRange, mergeFootprint, JSVal.add, JSVal.orElse, JSVal.truthy,
      JSVal.jmin, JSVal.jmax]
  · norm_num [claimedMergedMax]
  · simp

/-- C2 (amended): with `outer = false`, for inputs whose fields are
numbers or absent, the result width/height is the larger of the two
inputs' width/height (absent defaulting to 0), and the result
maxW/maxH is the smaller of the two inputs' maximums with an absent
*or zero* maximum treated as +∞; in particular
`mergeSizeRange(null, null, false)` is
`{width: 0, height: 0, maxW: Infinity, maxH: Infinity}`. -/
theorem mergeSizeRange_no_outer_correct :
    (mergeSizeRange none none false =
      { width := JSVal.num 0, height := JSVal.num 0,
        minW := JSVal.undef, minH := JSVal.undef,
        maxW := JSVal.inf, maxH := JSVal.inf }) ∧
    (∀ (aw ah amw amh bw bh bmw bmh : Option ℚ) (bpw bph ow oh : JSVal),
      mergeSizeRange
          (some ⟨optJS aw, optJS ah, JSVal.undef, JSVal.undef, optJS amw, optJS amh⟩)
          (some ⟨optJS bw, optJS bh, optJS bmw, optJS bmh, bpw, bph, ow, oh⟩)
          false =
        { width := JSVal.num (max (aw.getD 0) (bw.getD 0)),
          height := JSVal.num (max (ah.getD 0) (bh.getD 0)),
          minW := JSVal.undef, minH := JSVal.undef,
          maxW := claimedMergedMax (zClear amw) (zClear bmw),
          maxH := claimedMergedMax (zClear amh) (zClear bmh) }) := by
  constructor
  · decide
  · intro aw ah amw amh bw bh bmw bmh bpw bph ow oh
    simp only [mergeSizeRange, mergeFootprint, Option.getD_some, if_false,
      Bool.false_eq_true, orElse_optJS_zero, orElse_add_zero_zero,
      orElse_optJS_inf, orElse_add_zero_inf, jmin_infJS]
    rfl

/-- Modelled from claim C3's words: the footprint is "its
bpWidth/bpHeight, or outerWidth − width / outerHeight − height when
those aggregate fields are absent, or 0 when both sources of the
footprint are missing". -/
def claimedFootprint (bp outerDim : Option ℚ) (dim : ℚ) : ℚ :=
  match bp with
  | some b => b
  | none =>
    match outerDim with
    | some o => o - dim
    | none => 0

/-- The footprint `mergeSizeRange` actually computes on all-numeric
metrics fields: `bp` when nonzero, else `outerDim - dim` when
`outerDim` is nonzero, else 0. -/
def footprintVal (bp outerDim dim : ℚ) : ℚ :=
  if bp ≠ 0 then bp else if outerDim ≠ 0 then outerDim - dim else 0

theorem mergeFootprint_num (bp o d : ℚ) :
    mergeFootprint true (JSVal.num bp) (JSVal.num o) (JSVal.num d)
      = JSVal.num (footprintVal bp o d) := by
  by_cases hb : bp = 0 <;> by_cases ho : o = 0 <;>
    simp [mergeFootprint, footprintVal, JSVal.orElse, JSVal.truthy, JSVal.sub, hb, ho]

theorem orElse_num_zero (x : ℚ) :
    JSVal.orElse (JSVal.num x) (JSVal.num 0) = JSVal.num x := by
  by_cases h : x = 0 <;> simp [JSVal.orElse, JSVal.truthy, h]

theorem orElse_num_inf {x : ℚ} (h : x ≠ 0) :
    JSVal.orElse (JSVal.num x) JSVal.inf = JSVal.num x := by
  simp [JSVal.orElse, JSVal.truthy, h]

theorem jmin_infJS_num (x : Option ℚ) (v : ℚ) (hv : v ≠ 0) :
    JSVal.jmin (infJS x) (JSVal.num v) = claimedMergedMax x (zClear (some v)) := by
  cases x <;> simp [infJS, JSVal.jmin, claimedMergedMax, zClear, hv]

/-- C3 counterexample: the claim takes the `outerWidth − width`
derivation only "when those aggregate fields are absent", but the code
tests falsiness, so a *present* `bpWidth` of 0 also triggers it:
merging `{width:100, bpWidth:0, outerWidth:200}` under `outer = true`
contributes width `100 + (200 − 100) = 200`, while the claim's
footprint is `bpWidth = 0`, predicting width `100`. -/
theorem mergeSizeRange_outer_zero_bp_cex :
    (mergeSizeRange none
        (some ⟨JSVal.num 100, JSVal.undef, JSVal.undef, JSVal.undef,
               JSVal.num 0, JSVal.undef, JSVal.num 200, JSVal.undef⟩) true).width
      = JSVal.num 200 ∧
    claimedFootprint (some 0) (some 200) 100 = 0 ∧
    JSVal.num (max 0 (100 + claimedFootprint (some 0) (some 200) 100))
      = JSVal.num 100 ∧
    JSVal.num 200 ≠ JSVal.num 100 := by
  refine ⟨?_, rfl, ?_, ?_⟩
  · simp [mergeSizeRange, mergeFootprint, emptySizeRange, JSVal.add, JSVal.sub,
      JSVal.orElse, JSVal.truthy, JSVal.jmax]
  · norm_num [claimedFootprint]
  · simp

/-- C3 (amended): with `outer = true`, the border+padding footprint of
the metrics argument — its `bpWidth`/`bpHeight` when present and
nonzero, else `outerWidth − width` / `outerHeight − height` when
`outerWidth`/`outerHeight` is present and nonzero, else 0 — is added
to the metrics' width/height and to its maxW/maxH before the max/min
merge (stated for all-numeric metrics whose maximum-plus-footprint
sums are nonzero, a zero sum being read as "no constraint"); in the
claim's example the result width is 120 and the result maxW is 220. -/
theorem mergeSizeRange_outer_correct :
    (∀ (q : ℚ) (od d : JSVal), q ≠ 0 →
      mergeFootprint true (JSVal.num q) od d = JSVal.num q) ∧
    (∀ (bp : JSVal) (o w : ℚ), (bp = JSVal.undef ∨ bp = JSVal.num 0) → o ≠ 0 →
      mergeFootprint true bp (JSVal.num o) (JSVal.num w) = JSVal.num (o - w)) ∧
    (∀ (bp od d : JSVal), (bp = JSVal.undef ∨ bp = JSVal.num 0) →
      (od = JSVal.undef ∨ od = JSVal.num 0) →
      mergeFootprint true bp od d = JSVal.num 0) ∧
    (∀ (aw ah amw amh : Option ℚ) (bw bh bmw bmh bpw bph ow oh : ℚ),
      bmw + footprintVal bpw ow bw ≠ 0 →
      bmh + footprintVal bph oh bh ≠ 0 →
      mergeSizeRange
          (some ⟨optJS aw, optJS ah, JSVal.undef, JSVal.undef, optJS amw, optJS amh⟩)
          (some ⟨JSVal.num bw, JSVal.num bh, JSVal.num bmw, JSVal.num bmh,
                 JSVal.num bpw, JSVal.num bph, JSVal.num ow, JSVal.num oh⟩) true =
        { width := JSVal.num (max (aw.getD 0) (bw + footprintVal bpw ow bw)),
          height := JSVal.num (max (ah.getD 0) (bh + footprintVal bph oh bh)),
          minW := JSVal.undef, minH := JSVal.undef,
          maxW := claimedMergedMax (zClear amw) (some (bmw + footprintVal bpw ow bw)),
          maxH := claimedMergedMax (zClear amh) (some (bmh + footprintVal bph oh bh)) }) ∧
    ((mergeSizeRange
        (some ⟨JSVal.num 50, JSVal.num 50, JSVal.undef, JSVal.undef,
               JSVal.num 300, JSVal.num 300⟩)
        (some ⟨JSVal.num 100, JSVal.num 50, JSVal.num 200, JSVal.num 100,
               JSVal.num 20, JSVal.num 10, JSVal.undef, JSVal.undef⟩) true).width
        = JSVal.num 120 ∧
      (mergeSizeRange
        (some ⟨JSVal.num 50, JSVal.num 50, JSVal.undef, JSVal.undef,
               JSVal.num 300, JSVal.num 300⟩)
        (some ⟨JSVal.num 100, JSVal.num 50, JSVal.num 200, JSVal.num 100,
               JSVal.num 20, JSVal.num 10, JSVal.undef, JSVal.undef⟩) true).maxW
        = JSVal.num 220) := by
  refine ⟨?_, ?_, ?_, ?_, ?_, ?_⟩
  · intro q od d hq
    simp [mergeFootprint, JSVal.orElse, JSVal.truthy, hq]
  · intro bp o w hbp ho
    rcases hbp with h | h <;>
      simp [mergeFootprint, JSVal.orElse, JSVal.truthy, JSVal.sub, h, ho]
  · intro bp od d hbp hod
    rcases hbp with h | h <;> rcases hod with h' | h' <;>
      simp [mergeFootprint, JSVal.orElse, JSVal.truthy, h, h']
  · intro aw ah amw amh bw bh bmw bmh bpw bph ow oh hw hh
    have hfw := mergeFootprint_num bpw ow bw
    have hfh := mergeFootprint_num bph oh bh
    simp only [mergeSizeRange, Option.getD_some, hfw, hfh, JSVal.add,
      orElse_num_zero, orElse_optJS_zero, orElse_optJS_inf,
      orElse_num_inf hw, orElse_num_inf hh, jmin_infJS_num _ _ hw,
      jmin_infJS_num _ _ hh, JSVal.jmax, zClear, hw, hh, if_neg]
    simp [zClear, hw, hh]
  · simp [mergeSizeRange, mergeFootprint, JSVal.add, JSVal.orElse, JSVal.truthy,
      JSVal.jmax, JSVal.jmin]
    norm_num [max_def]
  · simp [mergeSizeRange, mergeFootprint, JSVal.add, JSVal.orElse, JSVal.truthy,
      JSVal.jmax, JSVal.jmin]
    norm_num [min_def]

/-- Decimal value of a digit run (most significant digit first). -/
def decValue (ds : List Char) : ℕ :=
  ds.foldl (fun acc c => 10 * acc + (c.toNat - '0'.toNat)) 0

/-- The optional `px` tail of the pixel regex
`/^-?\d+(?:px)?$/i` (dimensions.js line 27): empty, or a
case-insensitive `px`. -/
def pixelSuffix : List Char → Bool
  | [] => true
  | [p, x] => (p == 'p' || p == 'P') && (x == 'x' || x == 'X')
  | _ => false

/-- The characters after the optional leading `-` of the regex. -/
def pixelBody (cs : List Char) : List Char :=
  match cs with
  | [] => []
  | c :: rest => if c = '-' then rest else c :: rest

/-- Whether the string carries the optional leading `-`. -/
def isNegative (cs : List Char) : Bool :=
  match cs with
  | c :: _ => c == '-'
  | [] => false

/-- `treesaver.dimensions.pixel.test(val)`: the anchored regex
`/^-?\d+(?:px)?$/i` matches iff after the optional sign there is a
nonempty digit run followed by nothing or a case-insensitive `px`. -/
def pixelTest (s : String) : Bool :=
  let body := pixelBody s.data
  !(body.takeWhile Char.isDigit).isEmpty &&
    pixelSuffix (body.dropWhile Char.isDigit)

/-- JavaScript `parseFloat`, restricted to the strings the pixel regex
accepts: the signed value of the leading digit run (`parseFloat` stops
at the first character that cannot extend a number, here the `p` of
`px`). -/
def parseFloatPx (s : String) : ℚ :=
  let v : ℚ := (decValue ((pixelBody s.data).takeWhile Char.isDigit) : ℚ)
  if isNegative s.data then -v else v

/-- `treesaver.dimensions.toPixels(el, val)` (dimensions.js lines
87–93): `if (val && pixel.test(val)) { return parseFloat(val); }
return null;`.  A `null`/`undefined` value is `none`; the empty string
is falsy.  The function is total: no exception path exists. -/
def toPixels (val : Option String) : Option ℚ :=
  match val with
  | none => none
  | some s => if s.data ≠ [] ∧ pixelTest s = true then some (parseFloatPx s) else none

theorem pixelSuffix_head_not_digit {suffix : List Char}
    (h : pixelSuffix suffix = true) :
    ∀ c rest, suffix = c :: rest → c.isDigit = false := by
  intro c rest he
  subst he
  cases rest with
  | nil => simp [pixelSuffix] at h
  | cons x t =>
    cases t with
    | nil =>
      simp [pixelSuffix] at h
      rcases h.1 with h' | h' <;> subst h' <;> decide
    | cons y u => simp [pixelSuffix] at h

theorem takeWhile_digits_append (ds suffix : List Char)
    (hds : ∀ c ∈ ds, c.isDigit = true)
    (hsuf : ∀ c rest, suffix = c :: rest → c.isDigit = false) :
    (ds ++ suffix).takeWhile Char.isDigit = ds ∧
      (ds ++ suffix).dropWhile Char.isDigit = suffix := by
  induction ds with
  | nil =>
    cases suffix with
    | nil => exact ⟨rfl, rfl⟩
    | cons c rest =>
      have hc := hsuf c rest rfl
      simp [List.takeWhile_cons, List.dropWhile_cons, hc]
  | cons d t ih =>
    have hd : d.isDigit = true := hds d (List.mem_cons_self _ _)
    have ht := ih fun c hc => hds c (List.mem_cons_of_mem _ hc)
    simp [List.takeWhile_cons, List.dropWhile_cons, hd, ht.1, ht.2]

theorem pixelTest_build (neg : Bool) (d : Char) (t suffix : List Char)
    (hds : ∀ c ∈ d :: t, c.isDigit = true) (hsuf : pixelSuffix suffix = true)
    (hdneg : d ≠ '-') :
    pixelTest ⟨(if neg then ['-'] else []) ++ (d :: t) ++ suffix⟩ = true ∧
      parseFloatPx ⟨(if neg then ['-'] else []) ++ (d :: t) ++ suffix⟩
        = (if neg then (-1 : ℚ) else 1) * (decValue (d :: t) : ℚ) := by
  have htw := takeWhile_digits_append (d :: t) suffix hds
    (pixelSuffix_head_not_digit hsuf)
  have hbody : pixelBody ((if neg then ['-'] else []) ++ (d :: t) ++ suffix)
      = (d :: t) ++ suffix := by
    cases neg <;> simp [pixelBody, hdneg]
  have hneg : isNegative ((if neg then ['-'] else []) ++ (d :: t) ++ suffix) = neg := by
    cases neg <;> simp [isNegative, hdneg]
  constructor
  · simp only [pixelTest, hbody, htw.1, htw.2, hsuf, List.isEmpty_cons,
      Bool.not_false, Bool.and_self]
  · simp only [parseFloatPx, hbody, htw.1, hneg]
    cases neg <;> simp

/-- C4: `toPixels` returns the parsed signed decimal value for every
string matching the pixel-literal pattern (optional leading minus, one
or more digits, optional case-insensitive `px`), and `none` (unset) for
every other string and for an absent value; the embedding is a total
function, so no exception path exists. -/
theorem toPixels_correct :
    toPixels none = none ∧
    (∀ s : String, pixelTest s = false → toPixels (some s) = none) ∧
    (∀ (neg : Bool) (ds suffix : List Char), ds ≠ [] →
      (∀ c ∈ ds, c.isDigit = true) → pixelSuffix suffix = true →
      toPixels (some ⟨(if neg then ['-'] else []) ++ ds ++ suffix⟩)
        = some ((if neg then (-1 : ℚ) else 1) * (decValue ds : ℚ))) ∧
    toPixels (some "normal") = none ∧
    toPixels (some "1.5em") = none ∧
    toPixels (some "") = none ∧
    toPixels (some "12px") = some 12 ∧
    toPixels (some "-12Px") = some (-12) := by
  refine ⟨rfl, ?_, ?_, ?_, ?_, ?_, ?_, ?_⟩
  · intro s h
    simp [toPixels, h]
  · intro neg ds suffix hne hds hsuf
    obtain ⟨d, t, rfl⟩ : ∃ d t, ds = d :: t := by
      cases ds with
      | nil => exact absurd rfl hne
      | cons d t => exact ⟨d, t, rfl⟩
    have hdneg : d ≠ '-' := by
      intro h
      have hd : d.isDigit = true := hds d (List.mem_cons_self _ _)
      subst h
      exact absurd hd (by decide)
    have hb := pixelTest_build neg d t suffix hds hsuf hdneg
    have hdata : (String.mk ((if neg then ['-'] else []) ++ (d :: t) ++ suffix)).data
        ≠ [] := by
      cases neg <;> simp
    simp only [toPixels, hb.1, hdata, ne_eq, not_false_iff, and_self, if_pos,
      true_and, hb.2, if_true]
  · simp [toPixels, pixelTest, pixelBody, pixelSuffix]
  · simp [toPixels, pixelTest, pixelBody, pixelSuffix]
  · simp [toPixels]
  · simp [toPixels, pixelTest, parseFloatPx, pixelBody, isNegative, pixelSuffix,
      decValue, List.takeWhile_cons, List.dropWhile_cons, Char.isDigit]
  · simp [toPixels, pixelTest, parseFloatPx, pixelBody, isNegative, pixelSuffix,
      decValue, List.takeWhile_cons, List.dropWhile_cons, Char.isDigit]

/-- Truncation toward zero, the integer division underlying
JavaScript's `%`. -/
def qtrunc (q : ℚ) : ℤ :=
  if 0 ≤ q then ⌊q⌋ else ⌈q⌉

/-- JavaScript `a % b` for a nonzero base: the remainder carrying the
sign of the dividend, `a - b * trunc(a / b)`.  (For `b = 0` JavaScript
yields `NaN`; no caller below uses that case.) -/
def jsMod (a b : ℚ) : ℚ :=
  a - b * qtrunc (a / b)

/-- `treesaver.dimensions.roundUp(number, base)` (dimensions.js lines
160–162): `Math.ceil(number) + base - (number % base)`. -/
def roundUp (number base : ℚ) : ℚ :=
  ⌈number⌉ + base - jsMod number base

theorem qtrunc_intCast (m : ℤ) : qtrunc (m : ℚ) = m := by
  unfold qtrunc
  by_cases h : (0 : ℚ) ≤ (m : ℚ) <;> simp [h]

theorem jsMod_lt {base : ℚ} (n : ℤ) (hb : 0 < base) : jsMod n base < base := by
  have hbne : base ≠ 0 := ne_of_gt hb
  have hfrac : (n : ℚ) / base - (qtrunc ((n : ℚ) / base) : ℚ) < 1 := by
    unfold qtrunc
    by_cases h : (0 : ℚ) ≤ (n : ℚ) / base
    · have := Int.sub_one_lt_floor ((n : ℚ) / base)
      simp only [h, if_pos]
      linarith
    · have := Int.le_ceil ((n : ℚ) / base)
      simp only [h, if_neg, if_false]
      linarith
  have h1 : (n : ℚ) - base * (qtrunc ((n : ℚ) / base) : ℚ)
      = base * ((n : ℚ) / base - (qtrunc ((n : ℚ) / base) : ℚ)) := by
    rw [mul_sub, mul_div_cancel₀ _ hbne]
  calc jsMod n base
      = base * ((n : ℚ) / base - (qtrunc ((n : ℚ) / base) : ℚ)) := by
        rw [jsMod, h1]
    _ < base * 1 := by exact mul_lt_mul_of_pos_left hfrac hb
    _ = base := mul_one base

/-- C5 counterexample: for the non-integer input 5.5 with base 10,
`roundUp(5.5, 10) = ceil(5.5) + 10 − (5.5 % 10) = 6 + 10 − 5.5 = 10.5`,
which is not a multiple of 10 (and not the claimed smallest aligned
value ≥ ceil). -/
theorem roundUp_not_multiple_cex :
    roundUp (11 / 2) 10 = 21 / 2 ∧ ¬ ∃ k : ℤ, (21 / 2 : ℚ) = k * 10 := by
  constructor
  · have h1 : qtrunc ((11 / 2 : ℚ) / 10) = 0 := by
      unfold qtrunc
      rw [if_pos (by norm_num)]
      rw [Int.floor_eq_iff]
      norm_num
    have h2 : ⌈(11 / 2 : ℚ)⌉ = 6 := by
      rw [Int.ceil_eq_iff]
      norm_num
    unfold roundUp jsMod
    rw [h1, h2]
    norm_num
  · rintro ⟨k, hk⟩
    have h2 : ((21 : ℤ) : ℚ) = ((20 * k : ℤ) : ℚ) := by
      push_cast
      linarith
    have h3 : (21 : ℤ) = 20 * k := Int.cast_injective h2
    omega

/-- C5 (amended): `roundUp(number, base)` always equals
`ceil(number) + base − (number % base)`; for every *integer* number and
positive base the result is `(trunc(number/base) + 1) · base`, a
multiple of the base strictly greater than `ceil(number) = number`, and
when the number is an exact multiple of the base the result is
`number + base` — so `roundUp(10, 10) = 20`, not 10.  (For non-integer
inputs the result need not be a multiple of the base.) -/
theorem roundUp_correct :
    (∀ number base : ℚ, roundUp number base
      = ⌈number⌉ + base - jsMod number base) ∧
    (∀ (n : ℤ) (base : ℚ), 0 < base →
      roundUp n base = (qtrunc ((n : ℚ) / base) + 1) * base ∧
      (∃ k : ℤ, roundUp n base = k * base) ∧
      (⌈(n : ℚ)⌉ : ℚ) < roundUp n base ∧
      (∀ m : ℤ, (n : ℚ) = m * base → roundUp n base = n + base)) ∧
    roundUp 10 10 = 20 := by
  refine ⟨fun _ _ => rfl, ?_, ?_⟩
  · intro n base hb
    have hbne : base ≠ 0 := ne_of_gt hb
    have hform : roundUp n base = (qtrunc ((n : ℚ) / base) + 1) * base := by
      unfold roundUp jsMod
      rw [Int.ceil_intCast]
      ring
    refine ⟨hform, ⟨qtrunc ((n : ℚ) / base) + 1, by rw [hform]; push_cast; ring⟩,
      ?_, ?_⟩
    · have hlt := jsMod_lt n hb
      have : roundUp n base = (n : ℚ) + base - jsMod n base := by
        unfold roundUp
        rw [Int.ceil_intCast]
      rw [Int.ceil_intCast, this]
      linarith
    · intro m hm
      have hq : (n : ℚ) / base = (m : ℚ) := by
        rw [hm, mul_div_assoc, div_self hbne, mul_one]
      unfold roundUp jsMod
      rw [Int.ceil_intCast, hq, qtrunc_intCast]
      have hmn : base * (m : ℚ) = (n : ℚ) := by
        rw [hm]
        ring
      rw [hmn]
      ring
  · have h1 : qtrunc ((10 : ℚ) / 10) = 1 := by
      have : ((10 : ℚ) / 10) = ((1 : ℤ) : ℚ) := by norm_num
      rw [this, qtrunc_intCast]
    have h2 : ⌈(10 : ℚ)⌉ = 10 := by
      rw [Int.ceil_eq_iff]
      norm_num
    unfold roundUp jsMod
    rw [h1, h2]
    norm_num

/-- The computed-style strings the `Metrics` constructor reads
(dimensions.js lines 176–243). -/
structure ComputedStyle where
  display : String
  position : String
  marginTop : String
  marginBottom : String
  marginLeft : String
  marginRight : String
  borderTopWidth : String
  borderBottomWidth : String
  borderLeftWidth : String
  borderRightWidth : String
  paddingTop : String
  paddingBottom : String
  paddingLeft : String
  paddingRight : String
  minWidth : String
  minHeight : String
  maxWidth : String
  maxHeight : String
  lineHeight : String

/-- The element data the `Metrics` constructor reads: the computed
style (via `getStyleObject`) and the rendered
`offsetWidth`/`offsetHeight` geometry. -/
structure Element where
  style : ComputedStyle
  offsetWidth : ℚ
  offsetHeight : ℚ

/-- `toPixels(el, v) || 0`: the pixel value with 0 as the fallback for
an unparsable string (a parsed 0 is falsy but `0 || 0` is still 0). -/
def pxOrZero (v : String) : ℚ :=
  (toPixels (some v)).getD 0

/-- `tmp = toPixels(el, v); (!tmp || tmp === -1) ? Infinity : tmp`
(dimensions.js lines 236–240): the max-constraint read, where `null`,
`0` and the Opera sentinel `-1` all mean unbounded. -/
def maxPixels (v : String) : JSVal :=
  match toPixels (some v) with
  | none => JSVal.inf
  | some q => if q = 0 ∨ q = -1 then JSVal.inf else JSVal.num q

/-- `toPixels(el, v) || null` (dimensions.js line 243): a parsed 0 is
falsy, so it collapses to `null`. -/
def lineHeightPx (v : String) : Option ℚ :=
  match toPixels (some v) with
  | none => none
  | some q => if q = 0 then none else some q

/-- The fields a populated `treesaver.dimensions.Metrics` snapshot
carries (dimensions.js lines 171–252). -/
structure Metrics where
  display : String
  position : String
  marginTop : ℚ
  marginBottom : ℚ
  marginLeft : ℚ
  marginRight : ℚ
  marginHeight : ℚ
  marginWidth : ℚ
  borderTop : ℚ
  borderBottom : ℚ
  borderLeft : ℚ
  borderRight : ℚ
  paddingTop : ℚ
  paddingBottom : ℚ
  paddingLeft : ℚ
  paddingRight : ℚ
  bpTop : ℚ
  bpBottom : ℚ
  bpHeight : ℚ
  bpLeft : ℚ
  bpRight : ℚ
  bpWidth : ℚ
  outerW : ℚ
  outerH : ℚ
  width : ℚ
  height : ℚ
  minW : ℚ
  minH : ℚ
  maxW : JSVal
  maxH : JSVal
  lineHeight : Option ℚ

/-- The `Metrics(el)` constructor body (dimensions.js lines 171–252)
for an element with a resolvable computed style: every per-side value
via `toPixels(...) || 0`, the summed aggregates, the rendered
`offsetWidth`/`offsetHeight` as `outerW`/`outerH`, the content box as
outer minus border+padding, and the min/max/line-height reads. -/
def Metrics.ofElement (el : Element) : Metrics :=
  let style := el.style
  let marginTop := pxOrZero style.marginTop
  let marginBottom := pxOrZero style.marginBottom
  let marginLeft := pxOrZero style.marginLeft
  let marginRight := pxOrZero style.marginRight
  let borderTop := pxOrZero style.borderTopWidth
  let borderBottom := pxOrZero style.borderBottomWidth
  let borderLeft := pxOrZero style.borderLeftWidth
  let borderRight := pxOrZero style.borderRightWidth
  let paddingTop := pxOrZero style.paddingTop
  let paddingBottom := pxOrZero style.paddingBottom
  let paddingLeft := pxOrZero style.paddingLeft
  let paddingRight := pxOrZero style.paddingRight
  let bpTop := borderTop + paddingTop
  let bpBottom := borderBottom + paddingBottom
  let bpHeight := bpTop + bpBottom
  let bpLeft := borderLeft + paddingLeft
  let bpRight := borderRight + paddingRight
  let bpWidth := bpLeft + bpRight
  let outerW := el.offsetWidth
  let outerH := el.offsetHeight
  { display := style.display,
    position := style.position,
    marginTop := marginTop,
    marginBottom := marginBottom,
    marginLeft := marginLeft,
    marginRight := marginRight,
    marginHeight := marginTop + marginBottom,
    marginWidth := marginLeft + marginRight,
    borderTop := borderTop,
    borderBottom := borderBottom,
    borderLeft := borderLeft,
    borderRight := borderRight,
    paddingTop := paddingTop,
    paddingBottom := paddingBottom,
    paddingLeft := paddingLeft,
    paddingRight := paddingRight,
    bpTop := bpTop,
    bpBottom := bpBottom,
    bpHeight := bpHeight,
    bpLeft := bpLeft,
    bpRight := bpRight,
    bpWidth := bpWidth,
    outerW := outerW,
    outerH := outerH,
    width := outerW - bpWidth,
    height := outerH - bpHeight,
    minW := pxOrZero style.minWidth,
    minH := pxOrZero style.minHeight,
    maxW := maxPixels style.maxWidth,
    maxH := maxPixels style.maxHeight,
    lineHeight := lineHeightPx style.lineHeight }

theorem pxOrZero_10px : pxOrZero "10px" = 10 := by
  simp [pxOrZero, toPixels, pixelTest, parseFloatPx, pixelBody, isNegative,
    pixelSuffix, decValue, List.takeWhile_cons, List.dropWhile_cons, Char.isDigit]

theorem pxOrZero_2px : pxOrZero "2px" = 2 := by
  simp [pxOrZero, toPixels, pixelTest, parseFloatPx, pixelBody, isNegative,
    pixelSuffix, decValue, List.takeWhile_cons, List.dropWhile_cons, Char.isDigit]

theorem pxOrZero_3px : pxOrZero "3px" = 3 := by
  simp [pxOrZero, toPixels, pixelTest, parseFloatPx, pixelBody, isNegative,
    pixelSuffix, decValue, List.takeWhile_cons, List.dropWhile_cons, Char.isDigit]

/-- The element of claim C6's worked example: margin `10px`, border
`2px`, padding `3px` on all sides, `offsetWidth` 100 and
`offsetHeight` 50. -/
def boxExampleElement : Element :=
  { style :=
    { display := "block", position := "static",
      marginTop := "10px", marginBottom := "10px",
      marginLeft := "10px", marginRight := "10px",
      borderTopWidth := "2px", borderBottomWidth := "2px",
      borderLeftWidth := "2px", borderRightWidth := "2px",
      paddingTop := "3px", paddingBottom := "3px",
      paddingLeft := "3px", paddingRight := "3px",
      minWidth := "0px", minHeight := "0px",
      maxWidth := "none", maxHeight := "none",
      lineHeight := "normal" },
    offsetWidth := 100, offsetHeight := 50 }

/-- C6: every `Metrics` snapshot satisfies the box arithmetic —
`bpTop = borderTop + paddingTop` (likewise per side),
`bpWidth = bpLeft + bpRight`, `bpHeight = bpTop + bpBottom`,
`marginWidth = marginLeft + marginRight`,
`marginHeight = marginTop + marginBottom`, `outerW`/`outerH` are the
rendered offset geometry, and `width = outerW − bpWidth`,
`height = outerH − bpHeight`; the worked example (margin 10px, border
2px, padding 3px, offset 100×50) gives `bpWidth = 10`,
`bpHeight = 10`, `width = 90`, `height = 40`, `marginWidth = 20`,
`marginHeight = 20`. -/
theorem Metrics_box_arithmetic :
    (∀ el : Element,
      (Metrics.ofElement el).bpTop
          = (Metrics.ofElement el).borderTop + (Metrics.ofElement el).paddingTop ∧
      (Metrics.ofElement el).bpBottom
          = (Metrics.ofElement el).borderBottom + (Metrics.ofElement el).paddingBottom ∧
      (Metrics.ofElement el).bpLeft
          = (Metrics.ofElement el).borderLeft + (Metrics.ofElement el).paddingLeft ∧
      (Metrics.ofElement el).bpRight
          = (Metrics.ofElement el).borderRight + (Metrics.ofElement el).paddingRight ∧
      (Metrics.ofElement el).bpWidth
          = (Metrics.ofElement el).bpLeft + (Metrics.ofElement el).bpRight ∧
      (Metrics.ofElement el).bpHeight
          = (Metrics.ofElement el).bpTop + (Metrics.ofElement el).bpBottom ∧
      (Metrics.ofElement el).marginWidth
          = (Metrics.ofElement el).marginLeft + (Metrics.ofElement el).marginRight ∧
      (Metrics.ofElement el).marginHeight
          = (Metrics.ofElement el).marginTop + (Metrics.ofElement el).marginBottom ∧
      (Metrics.ofElement el).outerW = el.offsetWidth ∧
      (Metrics.ofElement el).outerH = el.offsetHeight ∧
      (Metrics.ofElement el).width
          = (Metrics.ofElement el).outerW - (Metrics.ofElement el).bpWidth ∧
      (Metrics.ofElement el).height
          = (Metrics.ofElement el).outerH - (Metrics.ofElement el).bpHeight) ∧
    ((Metrics.ofElement boxExampleElement).bpWidth = 10 ∧
      (Metrics.ofElement boxExampleElement).bpHeight = 10 ∧
      (Metrics.ofElement boxExampleElement).width = 90 ∧
      (Metrics.ofElement boxExampleElement).height = 40 ∧
      (Metrics.ofElement boxExampleElement).marginWidth = 20 ∧
      (Metrics.ofElement boxExampleElement).marginHeight = 20) := by
  constructor
  · exact fun el => ⟨rfl, rfl, rfl, rfl, rfl, rfl, rfl, rfl, rfl, rfl, rfl, rfl⟩
  · simp only [Metrics.ofElement, boxExampleElement, pxOrZero_10px, pxOrZero_2px,
      pxOrZero_3px]
    norm_num

theorem pxOrZero_neg10px : pxOrZero "-10px" = -10 := by
  simp [pxOrZero, toPixels, pixelTest, parseFloatPx, pixelBody, isNegative,
    pixelSuffix, decValue, List.takeWhile_cons, List.dropWhile_cons, Char.isDigit]

/-- An element whose computed margins are the valid CSS negative pixel
literal `-10px` (margins, unlike borders and paddings, may be negative
in real computed styles). -/
def negMarginElement : Element :=
  { style :=
    { display := "block", position := "static",
      marginTop := "-10px", marginBottom := "-10px",
      marginLeft := "-10px", marginRight := "-10px",
      borderTopWidth := "0px", borderBottomWidth := "0px",
      borderLeftWidth := "0px", borderRightWidth := "0px",
      paddingTop := "0px", paddingBottom := "0px",
      paddingLeft := "0px", paddingRight := "0px",
      minWidth := "0px", minHeight := "0px",
      maxWidth := "none", maxHeight := "none",
      lineHeight := "normal" },
    offsetWidth := 100, offsetHeight := 50 }

/-- C7 counterexample: the claim asserts every per-side field is ≥ 0
for *all* computed-style inputs, but a computed margin of `-10px` is a
pixel literal the parser accepts, and the constructor stores it as is:
the snapshot's `marginTop` is −10, which is negative. -/
theorem Metrics_negative_margin_cex :
    (Metrics.ofElement negMarginElement).marginTop = -10 ∧
    ¬ (0 ≤ (Metrics.ofElement negMarginElement).marginTop) := by
  have h : (Metrics.ofElement negMarginElement).marginTop = -10 := by
    simp only [Metrics.ofElement, negMarginElement, pxOrZero_neg10px]
  refine ⟨h, ?_⟩
  rw [h]
  norm_num

/-- "All the pixel values an element's style string can yield for this
property are nonnegative" — the style-side hypothesis under which the
per-side fields are nonnegative. -/
def parsesNonneg (s : String) : Prop :=
  ∀ q : ℚ, toPixels (some s) = some q → 0 ≤ q

theorem pxOrZero_nonneg {s : String}
    (h : parsesNonneg s) : 0 ≤ pxOrZero s := by
  unfold pxOrZero
  cases hc : toPixels (some s) with
  | none => simp
  | some q => simpa using h q hc

theorem pxOrZero_of_unparsable {s : String}
    (h : toPixels (some s) = none) : pxOrZero s = 0 := by
  simp [pxOrZero, h]

/-- C7 (amended): each of the twelve per-side margin, border and
padding fields is the parsed pixel value with 0 as the default when the
computed-style string is unparsable; the fields are all ≥ 0 whenever
every value the style strings parse to is nonnegative (as real computed
borders and paddings always are), but a negative pixel-literal margin
is stored negated — the unconditional "≥ 0 for all inputs" fails. -/
theorem Metrics_per_side_correct :
    (∀ el : Element,
      parsesNonneg el.style.marginTop → parsesNonneg el.style.marginBottom →
      parsesNonneg el.style.marginLeft → parsesNonneg el.style.marginRight →
      parsesNonneg el.style.borderTopWidth → parsesNonneg el.style.borderBottomWidth →
      parsesNonneg el.style.borderLeftWidth → parsesNonneg el.style.borderRightWidth →
      parsesNonneg el.style.paddingTop → parsesNonneg el.style.paddingBottom →
      parsesNonneg el.style.paddingLeft → parsesNonneg el.style.paddingRight →
      (0 ≤ (Metrics.ofElement el).marginTop ∧
        0 ≤ (Metrics.ofElement el).marginBottom ∧
        0 ≤ (Metrics.ofElement el).marginLeft ∧
        0 ≤ (Metrics.ofElement el).marginRight ∧
        0 ≤ (Metrics.ofElement el).borderTop ∧
        0 ≤ (Metrics.ofElement el).borderBottom ∧
        0 ≤ (Metrics.ofElement el).borderLeft ∧
        0 ≤ (Metrics.ofElement el).borderRight ∧
        0 ≤ (Metrics.ofElement el).paddingTop ∧
        0 ≤ (Metrics.ofElement el).paddingBottom ∧
        0 ≤ (Metrics.ofElement el).paddingLeft ∧
        0 ≤ (Metrics.ofElement el).paddingRight)) ∧
    (∀ el : Element,
      (toPixels (some el.style.marginTop) = none →
        (Metrics.ofElement el).marginTop = 0) ∧
      (toPixels (some el.style.marginBottom) = none →
        (Metrics.ofElement el).marginBottom = 0) ∧
      (toPixels (some el.style.marginLeft) = none →
        (Metrics.ofElement el).marginLeft = 0) ∧
      (toPixels (some el.style.marginRight) = none →
        (Metrics.ofElement el).marginRight = 0) ∧
      (toPixels (some el.style.borderTopWidth) = none →
        (Metrics.ofElement el).borderTop = 0) ∧
      (toPixels (some el.style.borderBottomWidth) = none →
        (Metrics.ofElement el).borderBottom = 0) ∧
      (toPixels (some el.style.borderLeftWidth) = none →
        (Metrics.ofElement el).borderLeft = 0) ∧
      (toPixels (some el.style.borderRightWidth) = none →
        (Metrics.ofElement el).borderRight = 0) ∧
      (toPixels (some el.style.paddingTop) = none →
        (Metrics.ofElement el).paddingTop = 0) ∧
      (toPixels (some el.style.paddingBottom) = none →
        (Metrics.ofElement el).paddingBottom = 0) ∧
      (toPixels (some el.style.paddingLeft) = none →
        (Metrics.ofElement el).paddingLeft = 0) ∧
      (toPixels (some el.style.paddingRight) = none →
        (Metrics.ofElement el).paddingRight = 0)) := by
  constructor
  · intro el h1 h2 h3 h4 h5 h6 h7 h8 h9 h10 h11 h12
    exact ⟨pxOrZero_nonneg h1, pxOrZero_nonneg h2, pxOrZero_nonneg h3,
      pxOrZero_nonneg h4, pxOrZero_nonneg h5, pxOrZero_nonneg h6,
      pxOrZero_nonneg h7, pxOrZero_nonneg h8, pxOrZero_nonneg h9,
      pxOrZero_nonneg h10, pxOrZero_nonneg h11, pxOrZero_nonneg h12⟩
  · intro el
    exact ⟨fun h => pxOrZero_of_unparsable h, fun h => pxOrZero_of_unparsable h,
      fun h => pxOrZero_of_unparsable h, fun h => pxOrZero_of_unparsable h,
      fun h => pxOrZero_of_unparsable h, fun h => pxOrZero_of_unparsable h,
      fun h => pxOrZero_of_unparsable h, fun h => pxOrZero_of_unparsable h,
      fun h => pxOrZero_of_unparsable h, fun h => pxOrZero_of_unparsable h,
      fun h => pxOrZero_of_unparsable h, fun h => pxOrZero_of_unparsable h⟩

/-- A real `Metrics` snapshot as `mergeSizeRange` reads it: the
constructor stores its rendered geometry in fields named `outerW` and
`outerH` (dimensions.js lines 224–225), while `mergeSizeRange` reads
fields named `outerWidth` and `outerHeight` (lines 65–68) — property
reads that miss and therefore yield `undefined`. -/
def Metrics.toMergeView (m : Metrics) : MetricsView :=
  { width := JSVal.num m.width,
    height := JSVal.num m.height,
    maxW := m.maxW,
    maxH := m.maxH,
    bpWidth := JSVal.num m.bpWidth,
    bpHeight := JSVal.num m.bpHeight,
    outerWidth := JSVal.undef,
    outerHeight := JSVal.undef }

/-- C9: `mergeSizeRange` reads `outerWidth`/`outerHeight`, but a
constructed `Metrics` only defines `outerW`/`outerH`, so those reads
are `undefined`; hence for every real snapshot whose `bpWidth`
(resp. `bpHeight`) is 0, the footprint contributed under
`outer = true` is 0 — the `outer − width` derivation path is never
taken for real snapshots. -/
theorem Metrics_merge_outer_fallback :
    (∀ el : Element,
      (Metrics.ofElement el).toMergeView.outerWidth = JSVal.undef ∧
      (Metrics.ofElement el).toMergeView.outerHeight = JSVal.undef) ∧
    (∀ el : Element, (Metrics.ofElement el).bpWidth = 0 →
      mergeFootprint true ((Metrics.ofElement el).toMergeView).bpWidth
        ((Metrics.ofElement el).toMergeView).outerWidth
        ((Metrics.ofElement el).toMergeView).width = JSVal.num 0) ∧
    (∀ el : Element, (Metrics.ofElement el).bpHeight = 0 →
      mergeFootprint true ((Metrics.ofElement el).toMergeView).bpHeight
        ((Metrics.ofElement el).toMergeView).outerHeight
        ((Metrics.ofElement el).toMergeView).height = JSVal.num 0) := by
  refine ⟨fun el => ⟨rfl, rfl⟩, fun el h => ?_, fun el h => ?_⟩
  · simp [Metrics.toMergeView, mergeFootprint, JSVal.orElse, JSVal.truthy, h]
  · simp [Metrics.toMergeView, mergeFootprint, JSVal.orElse, JSVal.truthy, h]

theorem maxPixels_cases (s : String) :
    maxPixels s = JSVal.inf ∨
      ∃ q : ℚ, maxPixels s = JSVal.num q ∧ q ≠ 0 ∧ q ≠ -1 ∧
        toPixels (some s) = some q := by
  unfold maxPixels
  cases h : toPixels (some s) with
  | none => exact Or.inl rfl
  | some q =>
    by_cases hq : q = 0 ∨ q = -1
    · exact Or.inl (by simp [hq])
    · push_neg at hq
      exact Or.inr ⟨q, by simp [hq.1, hq.2], hq.1, hq.2, rfl⟩

theorem maxPixels_of_zero {s : String} (h : toPixels (some s) = some 0) :
    maxPixels s = JSVal.inf := by
  simp [maxPixels, h]

theorem toPixels_neg5px : toPixels (some "-5px") = some (-5) := by
  simp [toPixels, pixelTest, parseFloatPx, pixelBody, isNegative,
    pixelSuffix, decValue, List.takeWhile_cons, List.dropWhile_cons, Char.isDigit]

/-- An element whose computed `max-width` is the negative pixel
literal `-5px`. -/
def negMaxElement : Element :=
  { style :=
    { display := "block", position := "static",
      marginTop := "0px", marginBottom := "0px",
      marginLeft := "0px", marginRight := "0px",
      borderTopWidth := "0px", borderBottomWidth := "0px",
      borderLeftWidth := "0px", borderRightWidth := "0px",
      paddingTop := "0px", paddingBottom := "0px",
      paddingLeft := "0px", paddingRight := "0px",
      minWidth := "0px", minHeight := "0px",
      maxWidth := "-5px", maxHeight := "none",
      lineHeight := "normal" },
    offsetWidth := 100, offsetHeight := 50 }

/-- C10 counterexample: a computed `max-width` of `-5px` parses to −5,
which is neither 0 nor the −1 sentinel, so the snapshot stores
`maxW = −5` — not a strictly positive finite number and not +∞. -/
theorem Metrics_negative_max_cex :
    (Metrics.ofElement negMaxElement).maxW = JSVal.num (-5) ∧
    ¬ ((Metrics.ofElement negMaxElement).maxW = JSVal.inf ∨
      ∃ q : ℚ, (Metrics.ofElement negMaxElement).maxW = JSVal.num q ∧ 0 < q) := by
  have h : (Metrics.ofElement negMaxElement).maxW = JSVal.num (-5) := by
    show maxPixels "-5px" = JSVal.num (-5)
    rw [maxPixels, toPixels_neg5px]
    norm_num
  refine ⟨h, ?_⟩
  rw [h]
  rintro (hc | ⟨q, hq, hq0⟩)
  · simp at hc
  · rw [JSVal.num.injEq] at hq
    rw [← hq] at hq0
    norm_num at hq0

/-- C10 (amended): in every constructed snapshot, `maxW` and `maxH`
are each either +∞ or a finite parsed value that is neither 0 nor −1
(so a declared maximum of zero cannot be represented: a parsed 0, like
an unparsable value or the −1 sentinel, maps to +∞); whenever the
computed string parses only to nonnegative values — as any real CSS
`max-width`/`max-height` does — the stored maximum is strictly
positive or +∞, but a negative pixel literal is stored negative. -/
theorem Metrics_max_correct :
    (∀ el : Element,
      ((Metrics.ofElement el).maxW = JSVal.inf ∨
        ∃ q : ℚ, (Metrics.ofElement el).maxW = JSVal.num q ∧ q ≠ 0 ∧ q ≠ -1) ∧
      ((Metrics.ofElement el).maxH = JSVal.inf ∨
        ∃ q : ℚ, (Metrics.ofElement el).maxH = JSVal.num q ∧ q ≠ 0 ∧ q ≠ -1)) ∧
    (∀ el : Element, (Metrics.ofElement el).maxW ≠ JSVal.num 0 ∧
      (Metrics.ofElement el).maxH ≠ JSVal.num 0) ∧
    (∀ el : Element, toPixels (some el.style.maxWidth) = some 0 →
      (Metrics.ofElement el).maxW = JSVal.inf) ∧
    (∀ el : Element, toPixels (some el.style.maxHeight) = some 0 →
      (Metrics.ofElement el).maxH = JSVal.inf) ∧
    (∀ el : Element, parsesNonneg el.style.maxWidth →
      ((Metrics.ofElement el).maxW = JSVal.inf ∨
        ∃ q : ℚ, (Metrics.ofElement el).maxW = JSVal.num q ∧ 0 < q)) ∧
    (∀ el : Element, parsesNonneg el.style.maxHeight →
      ((Metrics.ofElement el).maxH = JSVal.inf ∨
        ∃ q : ℚ, (Metrics.ofElement el).maxH = JSVal.num q ∧ 0 < q)) := by
  have hcases : ∀ s : String, maxPixels s = JSVal.inf ∨
      ∃ q : ℚ, maxPixels s = JSVal.num q ∧ q ≠ 0 ∧ q ≠ -1 := by
    intro s
    rcases maxPixels_cases s with h | ⟨q, h, h0, h1, _⟩
    · exact Or.inl h
    · exact Or.inr ⟨q, h, h0, h1⟩
  have hne : ∀ s : String, maxPixels s ≠ JSVal.num 0 := by
    intro s h
    rcases maxPixels_cases s with h' | ⟨q, h', h0, _, _⟩
    · rw [h] at h'
      exact absurd h' (by simp)
    · rw [h] at h'
      rw [JSVal.num.injEq] at h'
      exact h0 h'.symm
  have hpos : ∀ s : String, parsesNonneg s →
      (maxPixels s = JSVal.inf ∨ ∃ q : ℚ, maxPixels s = JSVal.num q ∧ 0 < q) := by
    intro s hs
    rcases maxPixels_cases s with h | ⟨q, h, h0, _, hp⟩
    · exact Or.inl h
    · exact Or.inr ⟨q, h, lt_of_le_of_ne (hs q hp) (Ne.symm h0)⟩
  exact ⟨fun el => ⟨hcases _, hcases _⟩, fun el => ⟨hne _, hne _⟩,
    fun el h => maxPixels_of_zero h, fun el h => maxPixels_of_zero h,
    fun el h => hpos _ h, fun el h => hpos _ h⟩

/-- A JavaScript primitive value as stored in a `Metrics` instance's
fields: a number (possibly one of the infinities or `NaN`), a string,
`null`, or `undefined`.  All `Metrics` fields are primitives, so
`clone`'s shallow copy is a value copy. -/
inductive JSPrim where
  | undef : JSPrim
  | null : JSPrim
  | nan : JSPrim
  | inf : JSPrim
  | negInf : JSPrim
  | num : ℚ → JSPrim
  | str : String → JSPrim
deriving DecidableEq, Repr

/-- A JavaScript object's own enumerable data fields in insertion
order — the shape over which `Metrics.prototype.clone` iterates,
including fields added through the empty-constructor path plus
external extension. -/
abbrev JSRecord := List (String × JSPrim)

/-- Property read `r[k]` over the own fields: the first binding of the
key, or `undefined` when the object has no such own field. -/
def getField (r : JSRecord) (k : String) : JSPrim :=
  match r with
  | [] => JSPrim.undef
  | (k', v) :: rest => if k = k' then v else getField rest k

/-- Property write `r[k] = v`: overwrite the existing binding or
append a new own field. -/
def setField (r : JSRecord) (k : String) (v : JSPrim) : JSRecord :=
  match r with
  | [] => [(k, v)]
  | (k', v') :: rest =>
    if k = k' then (k, v) :: rest else (k', v') :: setField rest k v

/-- `Metrics.prototype.clone` (dimensions.js lines 259–270) on the own
data fields: `copy = new Metrics()` starts with no own fields, so for
each key of `this`, `copy[key]` reads `undefined` (prototype methods
such as `clone` itself are identical on both objects, so
`copy[key] !== this[key]` skips them), and the guard copies exactly
the own fields whose value is not `undefined`.  An own field that
holds `undefined` is skipped, but reading it off the clone still
yields `undefined`, so every property read agrees. -/
def cloneFields (r : JSRecord) : JSRecord :=
  r.filter fun kv => decide (kv.2 ≠ JSPrim.undef)

theorem getField_of_not_mem {r : JSRecord} {k : String}
    (h : k ∉ r.map Prod.fst) : getField r k = JSPrim.undef := by
  induction r with
  | nil => rfl
  | cons kv t ih =>
    obtain ⟨k', v⟩ := kv
    simp only [List.map_cons, List.mem_cons] at h
    push_neg at h
    simp only [getField, if_neg h.1]
    exact ih h.2

theorem getField_cloneFields (r : JSRecord) (k : String)
    (hnd : (r.map Prod.fst).Nodup) :
    getField (cloneFields r) k = getField r k := by
  induction r with
  | nil => rfl
  | cons kv t ih =>
    obtain ⟨k', v⟩ := kv
    simp only [List.map_cons, List.nodup_cons] at hnd
    by_cases hv : v = JSPrim.undef
    · subst hv
      have hclone : cloneFields ((k', JSPrim.undef) :: t) = cloneFields t := by
        simp [cloneFields]
      rw [hclone]
      by_cases hk : k = k'
      · subst hk
        have ht : getField t k = JSPrim.undef :=
          getField_of_not_mem hnd.1
        rw [ih hnd.2, ht]
        simp [getField]
      · rw [ih hnd.2]
        simp [getField, hk]
    · have hclone : cloneFields ((k', v) :: t) = (k', v) :: cloneFields t := by
        simp [cloneFields, hv]
      rw [hclone]
      by_cases hk : k = k'
      · subst hk
        simp [getField]
      · simp only [getField, if_neg hk]
        exact ih hnd.2

theorem getField_setField_ne (r : JSRecord) (k k' : String) (v : JSPrim)
    (h : k ≠ k') :
    getField (setField r k' v) k = getField r k := by
  induction r with
  | nil => simp [setField, getField, h]
  | cons kv t ih =>
    obtain ⟨k0, v0⟩ := kv
    by_cases hk : k' = k0
    · subst hk
      simp [setField, getField, h]
    · simp only [setField, if_neg hk]
      by_cases hkk : k = k0
      · subst hkk
        simp [getField]
      · simp only [getField, if_neg hkk]
        exact ih

/-- C8: on any record of own fields with distinct keys — whatever
fields it carries, an allow-list plays no role — the clone reads
value-equal to the source on every key (fields holding `undefined` are
not re-created, but still read as `undefined`), and overwriting any
field of the clone leaves every other field still reading the
source's value, the source itself being untouched by construction. -/
theorem Metrics_clone_correct :
    (∀ (r : JSRecord) (k : String), (r.map Prod.fst).Nodup →
      getField (cloneFields r) k = getField r k) ∧
    (∀ (r : JSRecord) (k k' : String) (v : JSPrim), (r.map Prod.fst).Nodup →
      k ≠ k' →
      getField (setField (cloneFields r) k' v) k = getField r k) := by
  refine ⟨getField_cloneFields, fun r k k' v hnd hne => ?_⟩
  rw [getField_setField_ne _ _ _ _ hne]
  exact getField_cloneFields r k hnd
